import Mathlib

/-!
Verification of the ShopInvt inventory/sales dashboard.

Shallow embedding of the sale-transaction consistency logic and the
reporting aggregator.  Money amounts (price, cost, totals, profit) are
modelled as rationals, quantities and stock counters as integers, and the
remote store (the `inventory` and `sales` collections) as explicit record
state threaded through each operation.  Store calls are modelled as
succeeding; the sequence of writes each handler performs is visible in the
resulting state.
-/

namespace ShopInvt

/-- A product row, as in `src/types.ts` and the `inventory` collection
(`id, name, category, price, cost, stock_quantity, reorder_level`). -/
structure Product where
  id : String
  name : String
  category : String
  price : ℚ
  cost : ℚ
  stockQuantity : ℤ
  reorderLevel : ℤ
deriving Repr, DecidableEq

/-- A sale row, as in the `sales` collection
(`id, product_id, product_name, quantity, total_amount, cost, profit, date`).
The `cost` column is the unit-cost snapshot written at insert time; the
client-side `Sale` interface omits it. -/
structure SaleRow where
  id : String
  productId : String
  productName : String
  quantity : ℤ
  totalAmount : ℚ
  cost : ℚ
  profit : ℚ
  date : String
deriving Repr, DecidableEq

/-- The remote store: the two collections scoped to the authenticated user. -/
structure Store where
  inventory : List Product
  sales : List SaleRow
deriving Repr, DecidableEq

/-- `supabase.from("sales").insert([...])`. -/
def insertSale (st : Store) (s : SaleRow) : Store :=
  { st with sales := st.sales ++ [s] }

/-- `supabase.from("inventory").update({ stock_quantity }).eq("id", pid)`:
every inventory row whose id matches is overwritten with the new stock. -/
def updateStock (st : Store) (pid : String) (newStock : ℤ) : Store :=
  { st with
    inventory :=
      st.inventory.map fun p =>
        if p.id = pid then { p with stockQuantity := newStock } else p }

/-- `supabase.from("sales").update({...}).eq("id", sid)`: the update branch
of `AddSaleForm.onSubmit` writes `product_id`, `product_name`, `quantity`,
`total_amount`, `profit` and `date` (the `cost` snapshot is left as is). -/
def updateSaleRow (st : Store) (sid pid pname : String) (q : ℤ)
    (total profit : ℚ) (date : String) : Store :=
  { st with
    sales :=
      st.sales.map fun s =>
        if s.id = sid then
          { s with
            productId := pid
            productName := pname
            quantity := q
            totalAmount := total
            profit := profit
            date := date }
        else s }

/-- `supabase.from("sales").delete().eq("id", sid)`. -/
def deleteSaleRow (st : Store) (sid : String) : Store :=
  { st with sales := st.sales.filter fun s => s.id ≠ sid }

/-- Result reported to the user by a form submission. -/
inductive Outcome where
  | ok
  | productNotFound
  | insufficientStock
  | storeError
deriving Repr, DecidableEq

/-- The insert branch of `AddSaleForm.onSubmit` (the editable form variant):
find `selectedProduct` in the fetched product list, compute
`total = price * quantity` and `profit = total - cost * quantity` from the
selected product, insert the sale row, then check
`data.quantity > selectedProduct.stockQuantity` (only after the insert) and,
when stock suffices, write `selectedProduct.stockQuantity - data.quantity`
back as the product's stock. -/
def createSaleSubmit (st : Store) (products : List Product) (pid : String)
    (q : ℤ) (date saleId : String) : Store × Outcome :=
  match products.find? (fun p => p.id = pid) with
  | none => (st, Outcome.productNotFound)
  | some selectedProduct =>
    let total : ℚ := selectedProduct.price * (q : ℚ)
    let profit : ℚ := total - selectedProduct.cost * (q : ℚ)
    let newSale : SaleRow :=
      { id := saleId
        productId := pid
        productName := selectedProduct.name
        quantity := q
        totalAmount := total
        cost := selectedProduct.cost
        profit := profit
        date := date }
    let st1 := insertSale st newSale
    if q > selectedProduct.stockQuantity then
      (st1, Outcome.insufficientStock)
    else
      let updatedStock := selectedProduct.stockQuantity - q
      (updateStock st1 selectedProduct.id updatedStock, Outcome.ok)

/-- The update branch of `AddSaleForm.onSubmit`: compute
`quantityDelta = data.quantity - existingSale.quantity`, re-fetch the
current stock of the (possibly changed) target product from the store,
reject when `currentStock - quantityDelta` is negative, otherwise update
the sale row (recomputing total and profit from the selected product's
current price and cost) and then write `newStock` as the target product's
stock. -/
def updateSaleSubmit (st : Store) (products : List Product)
    (existingSale : SaleRow) (pid : String) (q : ℤ) (date : String) :
    Store × Outcome :=
  match products.find? (fun p => p.id = pid) with
  | none => (st, Outcome.productNotFound)
  | some selectedProduct =>
    let total : ℚ := selectedProduct.price * (q : ℚ)
    let profit : ℚ := total - selectedProduct.cost * (q : ℚ)
    let originalQuantity := existingSale.quantity
    let quantityDelta := q - originalQuantity
    match st.inventory.find? (fun p => p.id = pid) with
    | none => (st, Outcome.storeError)
    | some productRow =>
      let currentStock := productRow.stockQuantity
      let newStock := currentStock - quantityDelta
      if newStock < 0 then
        (st, Outcome.insufficientStock)
      else
        let st1 := updateSaleRow st existingSale.id pid selectedProduct.name
          q total profit date
        (updateStock st1 selectedProduct.id newStock, Outcome.ok)

/-- `SalesList.handleDelete`: deletes the sale row and nothing else — the
inventory collection is never touched on this path. -/
def handleDelete (st : Store) (sale : SaleRow) : Store :=
  deleteSaleRow st sale.id

/-! ### InventoryContext (`src/context/InventoryContext.tsx`) -/

/-- The in-memory provider state: the `products` and `sales` React state. -/
structure InvState where
  products : List Product
  sales : List SaleRow
deriving Repr, DecidableEq

/-- `updateProductStock(productId, quantitySold)`: map over products,
decrementing `stockQuantity` on rows whose id matches, spreading the rest
of the fields unchanged. -/
def updateProductStock (st : InvState) (productId : String)
    (quantitySold : ℤ) : InvState :=
  { st with
    products :=
      st.products.map fun product =>
        if product.id = productId then
          { product with stockQuantity := product.stockQuantity - quantitySold }
        else product }

/-- `addSale(sale)`: append the sale to the sales state, then
`updateProductStock(sale.productId, sale.quantity)`. -/
def addSale (st : InvState) (sale : SaleRow) : InvState :=
  updateProductStock { st with sales := st.sales ++ [sale] }
    sale.productId sale.quantity

/-! ### Dashboard top-seller charts (`src/components/Dashboard.tsx`) -/

/-- The chart label: `s.productName.length > 10 ?
s.productName.slice(0, 10) + "…" : s.productName`. -/
def truncName (name : String) : String :=
  if name.length > 10 then name.take 10 ++ "…" else name

/-- One step of `grouped[name] = (grouped[name] || 0) + (s.profit || 0)` on
a plain JS object with string keys, which preserves first-insertion order;
modelled as an association list.  (`|| 0` maps a missing entry to `0`; on a
rational profit the guard is the identity, since the only falsy number it
could replace is `0` itself.) -/
def bumpGroup : List (String × ℚ) → String → ℚ → List (String × ℚ)
  | [], key, p => [(key, p)]
  | (k, v) :: rest, key, p =>
    if k = key then (k, v + p) :: rest else (k, v) :: bumpGroup rest key p

/-- Specification-side helper: lookup of a key in the grouping object. -/
def lookupG (g : List (String × ℚ)) (k : String) : Option ℚ :=
  (g.find? fun e => e.1 = k).map Prod.snd

/-- Specification-side helper: `grouped[k] || 0`. -/
def valG (g : List (String × ℚ)) (k : String) : ℚ :=
  (lookupG g k).getD 0

/-- `topMonthSales`: group the current month's sales by truncated product
name, sum profit per group, `sort((a, b) => b.amount - a.amount)`
(descending by amount), `slice(0, 10)`. -/
def topMonthSales (currentMonthSales : List SaleRow) : List (String × ℚ) :=
  let grouped := currentMonthSales.foldl
    (fun g s => bumpGroup g (truncName s.productName) s.profit) []
  (grouped.mergeSort fun a b => decide (b.2 ≤ a.2)).take 10

/-- `topYearSales`: identical pipeline applied to the current year's sales. -/
def topYearSales (currentYearSales : List SaleRow) : List (String × ℚ) :=
  let grouped := currentYearSales.foldl
    (fun g s => bumpGroup g (truncName s.productName) s.profit) []
  (grouped.mergeSort fun a b => decide (b.2 ≤ a.2)).take 10

/-! ### Dashboard CSV export (`generateSalesReport`) -/

/-- `Number.prototype.toFixed(2)` on an ordinary (finite) value: sign,
integer part and two rounded decimal digits. -/
def toFixed2 (x : ℚ) : String :=
  let sign := if x < 0 then "-" else ""
  let n : ℕ := (Int.floor (|x| * 100 + 1 / 2)).toNat
  let whole := n / 100
  let frac := n % 100
  sign ++ toString whole ++ "." ++
    (if frac < 10 then "0" ++ toString frac else toString frac)

/-- A JS number that may be the result of a division: finite, `NaN`
(from `0 / 0`) or a signed infinity (from `x / 0`, `x ≠ 0`). -/
inductive JsNum where
  | num (x : ℚ)
  | nan
  | posInf
  | negInf
deriving Repr, DecidableEq

/-- JS division `a / b` on finite operands. -/
def jsDiv (a b : ℚ) : JsNum :=
  if b = 0 then
    if a = 0 then JsNum.nan else if 0 < a then JsNum.posInf else JsNum.negInf
  else JsNum.num (a / b)

/-- Multiplication by the positive literal `100`. -/
def jsMul100 : JsNum → JsNum
  | JsNum.num x => JsNum.num (x * 100)
  | JsNum.nan => JsNum.nan
  | JsNum.posInf => JsNum.posInf
  | JsNum.negInf => JsNum.negInf

/-- `toFixed(2)` on a possibly non-finite JS number: `NaN.toFixed(2)` is the
string `"NaN"`, `Infinity.toFixed(2)` is `"Infinity"`. -/
def jsToFixed2 : JsNum → String
  | JsNum.num x => toFixed2 x
  | JsNum.nan => "NaN"
  | JsNum.posInf => "Infinity"
  | JsNum.negInf => "-Infinity"

/-- The lines of the CSV produced by `generateSalesReport`, split on the
`\n` separators the code writes.  `fmtDate` stands for the
locale-dependent `new Date(s.date).toLocaleDateString()`. -/
def generateSalesReportLines (fmtDate : String → String) (currentYear : ℤ)
    (currentYearSales : List SaleRow) : List String :=
  let totalQty : ℤ := (currentYearSales.map (fun s => s.quantity)).sum
  let totalAmt : ℚ := (currentYearSales.map (fun s => s.totalAmount)).sum
  let totalProf : ℚ := (currentYearSales.map (fun s => s.profit)).sum
  let saleLines := currentYearSales.map fun s =>
    fmtDate s.date ++ ",\"" ++ s.productName ++ "\"," ++ toString s.quantity
      ++ "," ++ jsToFixed2 (jsDiv s.totalAmount (s.quantity : ℚ)) ++ ","
      ++ toFixed2 s.totalAmount ++ "," ++ toFixed2 s.profit
  ["Date,Product Name,Quantity,Unit Price,Total Amount,Profit"]
    ++ saleLines
    ++ ["",
        "TOTALS,," ++ toString totalQty ++ ",," ++ toFixed2 totalAmt ++ ","
          ++ toFixed2 totalProf,
        "",
        "SUMMARY INFORMATION",
        "Reporting Period," ++ toString currentYear,
        "Total Products Sold," ++ toString totalQty,
        "Total Revenue," ++ toFixed2 totalAmt,
        "Total Profit," ++ toFixed2 totalProf,
        "Profit Margin," ++ jsToFixed2 (jsMul100 (jsDiv totalProf totalAmt))
          ++ "%"]

/-- The full CSV string: the lines joined by `\n`, with the trailing `\n`
the code appends after the last line. -/
def generateSalesReport (fmtDate : String → String) (currentYear : ℤ)
    (currentYearSales : List SaleRow) : String :=
  String.intercalate "\n"
    (generateSalesReportLines fmtDate currentYear currentYearSales) ++ "\n"

/-! ### Account-deletion endpoint (`supabase/functions/rapid-service`) -/

/-- A response: status code plus headers. -/
structure HttpResponse where
  status : ℕ
  headers : List (String × String)
deriving Repr, DecidableEq

/-- The inline `CORS_HEADERS` constant of the handler. -/
def CORS_HEADERS : List (String × String) :=
  [("Access-Control-Allow-Origin", "*"),
   ("Access-Control-Allow-Methods", "POST,OPTIONS"),
   ("Access-Control-Allow-Headers", "Content-Type,Authorization"),
   ("Content-Type", "application/json")]

/-- A request as the handler observes it.  `authHeader = none` models an
absent `Authorization` header (the code reads it as `""`).  `body = none`
models a body that is not valid JSON; `body = some none` a JSON body whose
`user_id` is absent (or otherwise falsy and not a string);
`body = some (some uid)` a JSON body carrying the string `uid` (the empty
string is falsy in JS and is rejected by the `!body.user_id` test). -/
structure HttpRequest where
  method : String
  authHeader : Option String
  body : Option (Option String)
deriving Repr, DecidableEq

/-- The environment-provided effects: `auth.getUser()` under a given JWT
resolves it to a user id or fails, and `auth.admin.deleteUser` succeeds or
fails. -/
structure AuthEnv where
  getUser : String → Option String
  adminDeleteOk : String → Bool

/-- The `serve` handler of `rapid-service/index.ts`, branch for branch:
preflight, method check, `Bearer` check, JWT validation, JSON parse,
`user_id` presence/match check, admin deletion.  Every response carries
`CORS_HEADERS`.  (`authHeader.replace("Bearer ", "")` on a string that
starts with `"Bearer "` removes that leading occurrence, i.e. drops the
first seven characters.) -/
def serveHandler (env : AuthEnv) (req : HttpRequest) : HttpResponse :=
  if req.method = "OPTIONS" then
    { status := 204, headers := CORS_HEADERS }
  else if req.method ≠ "POST" then
    { status := 405, headers := CORS_HEADERS }
  else
    let authHeader := req.authHeader.getD ""
    if ¬ authHeader.startsWith "Bearer " then
      { status := 401, headers := CORS_HEADERS }
    else
      let jwt := authHeader.drop ("Bearer ".length)
      match env.getUser jwt with
      | none => { status := 401, headers := CORS_HEADERS }
      | some userId =>
        match req.body with
        | none => { status := 400, headers := CORS_HEADERS }
        | some bodyUserId =>
          match bodyUserId with
          | none => { status := 400, headers := CORS_HEADERS }
          | some uid =>
            if uid = "" ∨ uid ≠ userId then
              { status := 400, headers := CORS_HEADERS }
            else if env.adminDeleteOk userId then
              { status := 200, headers := CORS_HEADERS }
            else
              { status := 500, headers := CORS_HEADERS }

/-! ## Theorems -/

/-- C1: for a valid Create on product `p` with quantity `q ≤ p.stockQuantity`,
the submission succeeds, every inventory row for that product ends with its
original stock minus `q`, and the recorded sale snapshots
`totalAmount = p.price * q` and `profit = (p.price - p.cost) * q` from the
product's current price and cost. -/
theorem createSale_valid_spec (st : Store) (products : List Product)
    (pid : String) (q : ℤ) (date saleId : String) (p : Product)
    (hfind : products.find? (fun r => r.id = pid) = some p)
    (hq : 0 < q) (hle : q ≤ p.stockQuantity)
    (hcache : ∀ r ∈ st.inventory, r.id = pid →
      r.stockQuantity = p.stockQuantity) :
    (createSaleSubmit st products pid q date saleId).2 = Outcome.ok ∧
    (createSaleSubmit st products pid q date saleId).1.inventory
      = st.inventory.map (fun r =>
          if r.id = pid then
            { r with stockQuantity := r.stockQuantity - q }
          else r) ∧
    (createSaleSubmit st products pid q date saleId).1.sales
      = st.sales ++
          [{ id := saleId, productId := pid, productName := p.name,
             quantity := q, totalAmount := p.price * (q : ℚ), cost := p.cost,
             profit := (p.price - p.cost) * (q : ℚ), date := date }] := by
  have hpid : p.id = pid := by simpa using List.find?_some hfind
  have hstock : ¬ p.stockQuantity < q := not_lt.mpr hle
  refine ⟨?_, ?_, ?_⟩
  · simp [createSaleSubmit, hfind, hstock]
  · simp only [createSaleSubmit, hfind, insertSale, updateStock]
    rw [if_neg hstock]
    refine List.map_congr_left fun r hr => ?_
    by_cases h : r.id = pid
    · rw [hpid]
      simp [h, hcache r hr h]
    · rw [hpid]
      simp [h]
  · simp only [createSaleSubmit, hfind, insertSale, updateStock]
    rw [if_neg hstock]
    simp [sub_mul]

/-- Witness for C1, on the worked example of the specification: price 100,
cost 60, stock 10, quantity 3. -/
theorem createSale_valid_spec_witness :
    (0 : ℤ) < 3 ∧
    (createSaleSubmit
        ⟨[⟨"A", "Apple", "Fruit", 100, 60, 10, 5⟩], []⟩
        [⟨"A", "Apple", "Fruit", 100, 60, 10, 5⟩]
        "A" 3 "2024-06-01" "s1").2 = Outcome.ok :=
  ⟨by decide,
   (createSale_valid_spec ⟨[⟨"A", "Apple", "Fruit", 100, 60, 10, 5⟩], []⟩
      [⟨"A", "Apple", "Fruit", 100, 60, 10, 5⟩] "A" 3 "2024-06-01" "s1"
      ⟨"A", "Apple", "Fruit", 100, 60, 10, 5⟩
      (by decide) (by decide) (by decide) (by decide)).1⟩

/-- C2 (evaluating the code at the failing input): creating a sale of
quantity 2 against a product holding 1 unit of stock does report
insufficient stock with the product's stock untouched — but the sale row
has already been inserted, because the insert branch writes the sale before
it checks the stock.  The claim's "performs no writes: no sale row is
inserted" is contradicted. -/
theorem createSale_insufficient_still_inserts :
    (createSaleSubmit ⟨[⟨"A", "Apple", "Fruit", 100, 60, 1, 5⟩], []⟩
        [⟨"A", "Apple", "Fruit", 100, 60, 1, 5⟩] "A" 2 "2024-06-01" "s1").2
      = Outcome.insufficientStock ∧
    (createSaleSubmit ⟨[⟨"A", "Apple", "Fruit", 100, 60, 1, 5⟩], []⟩
        [⟨"A", "Apple", "Fruit", 100, 60, 1, 5⟩] "A" 2 "2024-06-01" "s1").1.inventory
      = [⟨"A", "Apple", "Fruit", 100, 60, 1, 5⟩] ∧
    (createSaleSubmit ⟨[⟨"A", "Apple", "Fruit", 100, 60, 1, 5⟩], []⟩
        [⟨"A", "Apple", "Fruit", 100, 60, 1, 5⟩] "A" 2 "2024-06-01" "s1").1.sales
      = [⟨"s1", "A", "Apple", 2, 200, 60, 80, "2024-06-01"⟩] := by
  refine ⟨rfl, rfl, ?_⟩
  norm_num [createSaleSubmit, insertSale, updateStock]

/-- C5 (evaluating the code at the failing input): `SalesList.handleDelete`
deletes the sale row of quantity 3 but leaves the referenced product's
stock at 7 — no stock-restoring inventory call is ever issued, so the stock
never returns to 10 as the claim requires. -/
theorem handleDelete_does_not_restore_stock :
    (handleDelete
        ⟨[⟨"A", "Apple", "Fruit", 100, 60, 7, 5⟩],
         [⟨"s1", "A", "Apple", 3, 300, 60, 120, "2024-06-01"⟩]⟩
        ⟨"s1", "A", "Apple", 3, 300, 60, 120, "2024-06-01"⟩).sales = [] ∧
    (handleDelete
        ⟨[⟨"A", "Apple", "Fruit", 100, 60, 7, 5⟩],
         [⟨"s1", "A", "Apple", 3, 300, 60, 120, "2024-06-01"⟩]⟩
        ⟨"s1", "A", "Apple", 3, 300, 60, 120, "2024-06-01"⟩).inventory
      = [⟨"A", "Apple", "Fruit", 100, 60, 7, 5⟩] ∧
    (⟨"A", "Apple", "Fruit", 100, 60, 7, 5⟩ : Product)
      ≠ ⟨"A", "Apple", "Fruit", 100, 60, 10, 5⟩ := by
  decide

/-- C6 (evaluating the code at the failing input): starting from stock 10,
Create of quantity 3 followed by Delete of the very sale just created
leaves the stock at 7, not back at 10, because the delete path never
restores stock. -/
theorem create_then_delete_leaves_stock_deducted :
    ((handleDelete
        (createSaleSubmit ⟨[⟨"A", "Apple", "Fruit", 100, 60, 10, 5⟩], []⟩
            [⟨"A", "Apple", "Fruit", 100, 60, 10, 5⟩]
            "A" 3 "2024-06-01" "s1").1
        ⟨"s1", "A", "Apple", 3, 300, 60, 120, "2024-06-01"⟩).sales = []) ∧
    ((handleDelete
        (createSaleSubmit ⟨[⟨"A", "Apple", "Fruit", 100, 60, 10, 5⟩], []⟩
            [⟨"A", "Apple", "Fruit", 100, 60, 10, 5⟩]
            "A" 3 "2024-06-01" "s1").1
        ⟨"s1", "A", "Apple", 3, 300, 60, 120, "2024-06-01"⟩).inventory.map
      (fun p => p.stockQuantity) = [7]) ∧
    ((7 : ℤ) ≠ 10) := by
  decide

/-- C3: editing a sale to `q` units, with the target product's stock
re-fetched from the store as `row.stockQuantity`: when
`q ≤ currentStock + existingSale.quantity` the update succeeds, every
inventory row of the target product ends at
`currentStock - (q - existingSale.quantity)`, and the sale row's total and
profit are recomputed from the selected product's current price and cost;
when the computed stock would go negative the submission reports
insufficient stock and the store is completely untouched. -/
theorem updateSale_spec (st : Store) (products : List Product)
    (existingSale : SaleRow) (pid : String) (q : ℤ) (date : String)
    (sp row : Product)
    (hfind : products.find? (fun p => p.id = pid) = some sp)
    (hrow : st.inventory.find? (fun p => p.id = pid) = some row) :
    (q ≤ row.stockQuantity + existingSale.quantity →
      (updateSaleSubmit st products existingSale pid q date).2
        = Outcome.ok ∧
      (∀ r ∈ (updateSaleSubmit st products existingSale pid q date).1.inventory,
        r.id = pid →
        r.stockQuantity = row.stockQuantity - (q - existingSale.quantity)) ∧
      (∀ s ∈ (updateSaleSubmit st products existingSale pid q date).1.sales,
        s.id = existingSale.id →
        s.totalAmount = sp.price * (q : ℚ) ∧
        s.profit = (sp.price - sp.cost) * (q : ℚ) ∧
        s.quantity = q ∧ s.productId = pid ∧ s.productName = sp.name ∧
        s.date = date)) ∧
    (row.stockQuantity + existingSale.quantity < q →
      (updateSaleSubmit st products existingSale pid q date).2
        = Outcome.insufficientStock ∧
      (updateSaleSubmit st products existingSale pid q date).1 = st) := by
  have hpid : sp.id = pid := by simpa using List.find?_some hfind
  constructor
  · intro hle
    have hneg : ¬ row.stockQuantity - (q - existingSale.quantity) < 0 := by
      omega
    refine ⟨?_, ?_, ?_⟩
    · simp [updateSaleSubmit, hfind, hrow, hneg]
    · intro r hr hid
      simp only [updateSaleSubmit, hfind, hrow] at hr
      rw [if_neg hneg] at hr
      simp only [updateStock, updateSaleRow] at hr
      obtain ⟨r0, _, rfl⟩ := List.mem_map.mp hr
      by_cases h : r0.id = sp.id
      · simp [h]
      · exfalso
        apply h
        simp only [if_neg h] at hid
        rw [hid, hpid]
    · intro s hs hid
      simp only [updateSaleSubmit, hfind, hrow] at hs
      rw [if_neg hneg] at hs
      simp only [updateStock, updateSaleRow] at hs
      obtain ⟨s0, _, rfl⟩ := List.mem_map.mp hs
      by_cases h : s0.id = existingSale.id
      · simp [h, sub_mul]
      · exfalso
        apply h
        simpa [h] using hid
  · intro hlt
    have hneg : row.stockQuantity - (q - existingSale.quantity) < 0 := by
      omega
    constructor <;> simp [updateSaleSubmit, hfind, hrow, hneg]

/-- Witness for C3, on the worked example of the specification: a sale of 3
edited to 8 against re-fetched stock 7, so the new stock is 2. -/
theorem updateSale_spec_witness :
    (8 : ℤ) ≤ 7 + 3 ∧
    (updateSaleSubmit
        ⟨[⟨"A", "Apple", "Fruit", 100, 60, 7, 5⟩],
         [⟨"s0", "A", "Apple", 3, 300, 60, 120, "2024-06-01"⟩]⟩
        [⟨"A", "Apple", "Fruit", 100, 60, 7, 5⟩]
        ⟨"s0", "A", "Apple", 3, 300, 60, 120, "2024-06-01"⟩
        "A" 8 "2024-06-02").2 = Outcome.ok :=
  ⟨by decide,
   ((updateSale_spec
      ⟨[⟨"A", "Apple", "Fruit", 100, 60, 7, 5⟩],
       [⟨"s0", "A", "Apple", 3, 300, 60, 120, "2024-06-01"⟩]⟩
      [⟨"A", "Apple", "Fruit", 100, 60, 7, 5⟩]
      ⟨"s0", "A", "Apple", 3, 300, 60, 120, "2024-06-01"⟩
      "A" 8 "2024-06-02"
      ⟨"A", "Apple", "Fruit", 100, 60, 7, 5⟩
      ⟨"A", "Apple", "Fruit", 100, 60, 7, 5⟩
      (by decide) (by decide)).1 (by decide)).1⟩

/-- C4 as stated is false: editing the sale (originally 3 units of product
A) over to 5 units of product B, whose current stock is 10, leaves B at
`10 - (5 - 3) = 8`, not at `10 - 5 = 5` — the code applies the quantity
delta against the new product's stock, not the full new quantity. -/
theorem updateSale_product_change_cex :
    (updateSaleSubmit
        ⟨[⟨"A", "Apple", "Fruit", 100, 60, 7, 5⟩,
          ⟨"B", "Banana", "Fruit", 50, 20, 10, 5⟩],
         [⟨"s0", "A", "Apple", 3, 300, 60, 120, "2024-06-01"⟩]⟩
        [⟨"A", "Apple", "Fruit", 100, 60, 7, 5⟩,
         ⟨"B", "Banana", "Fruit", 50, 20, 10, 5⟩]
        ⟨"s0", "A", "Apple", 3, 300, 60, 120, "2024-06-01"⟩
        "B" 5 "2024-06-02").2 = Outcome.ok ∧
    (updateSaleSubmit
        ⟨[⟨"A", "Apple", "Fruit", 100, 60, 7, 5⟩,
          ⟨"B", "Banana", "Fruit", 50, 20, 10, 5⟩],
         [⟨"s0", "A", "Apple", 3, 300, 60, 120, "2024-06-01"⟩]⟩
        [⟨"A", "Apple", "Fruit", 100, 60, 7, 5⟩,
         ⟨"B", "Banana", "Fruit", 50, 20, 10, 5⟩]
        ⟨"s0", "A", "Apple", 3, 300, 60, 120, "2024-06-01"⟩
        "B" 5 "2024-06-02").1.inventory.map (fun p => p.stockQuantity)
      = [7, 8] ∧
    ¬ ((8 : ℤ) = 10 - 5) := by
  exact ⟨rfl, by decide, by decide⟩

/-- C4 amended: on a product-changing edit that passes the stock check, the
whole inventory is rewritten so that only rows of the *new* product change,
and they change by the quantity delta: the new product ends at
`currentStock - (q - existingSale.quantity)` (not `currentStock - q`),
while the original product's rows — never restored — pass through
unchanged. -/
theorem updateSale_product_change_spec (st : Store) (products : List Product)
    (existingSale : SaleRow) (pid : String) (q : ℤ) (date : String)
    (sp row : Product)
    (hfind : products.find? (fun p => p.id = pid) = some sp)
    (hrow : st.inventory.find? (fun p => p.id = pid) = some row)
    (hchanged : existingSale.productId ≠ pid)
    (hle : q ≤ row.stockQuantity + existingSale.quantity) :
    (updateSaleSubmit st products existingSale pid q date).2 = Outcome.ok ∧
    (updateSaleSubmit st products existingSale pid q date).1.inventory
      = st.inventory.map (fun r =>
          if r.id = pid then
            { r with
              stockQuantity :=
                row.stockQuantity - (q - existingSale.quantity) }
          else r) ∧
    (∀ r ∈ st.inventory, r.id = existingSale.productId →
      r ∈ (updateSaleSubmit st products existingSale pid q date).1.inventory) := by
  have hpid : sp.id = pid := by simpa using List.find?_some hfind
  have hneg : ¬ row.stockQuantity - (q - existingSale.quantity) < 0 := by
    omega
  have hinv : (updateSaleSubmit st products existingSale pid q date).1.inventory
      = st.inventory.map (fun r =>
          if r.id = pid then
            { r with
              stockQuantity :=
                row.stockQuantity - (q - existingSale.quantity) }
          else r) := by
    simp only [updateSaleSubmit, hfind, hrow]
    rw [if_neg hneg]
    simp only [updateStock, updateSaleRow, hpid]
  refine ⟨?_, hinv, ?_⟩
  · simp [updateSaleSubmit, hfind, hrow, hneg]
  · intro r hr hid
    rw [hinv]
    have : r.id ≠ pid := by rw [hid]; exact hchanged
    have himg : (fun r : Product =>
        if r.id = pid then
          { r with
            stockQuantity := row.stockQuantity - (q - existingSale.quantity) }
        else r) r = r := by simp [this]
    exact himg ▸ List.mem_map_of_mem _ hr

/-- Witness for C4's amended statement, at the counterexample input. -/
theorem updateSale_product_change_spec_witness :
    (("A" : String) ≠ "B") ∧ ((5 : ℤ) ≤ 10 + 3) ∧
    (updateSaleSubmit
        ⟨[⟨"A", "Apple", "Fruit", 100, 60, 7, 5⟩,
          ⟨"B", "Banana", "Fruit", 50, 20, 10, 5⟩],
         [⟨"s0", "A", "Apple", 3, 300, 60, 120, "2024-06-01"⟩]⟩
        [⟨"A", "Apple", "Fruit", 100, 60, 7, 5⟩,
         ⟨"B", "Banana", "Fruit", 50, 20, 10, 5⟩]
        ⟨"s0", "A", "Apple", 3, 300, 60, 120, "2024-06-01"⟩
        "B" 5 "2024-06-02").2 = Outcome.ok :=
  ⟨by decide, by decide,
   (updateSale_product_change_spec
      ⟨[⟨"A", "Apple", "Fruit", 100, 60, 7, 5⟩,
        ⟨"B", "Banana", "Fruit", 50, 20, 10, 5⟩],
       [⟨"s0", "A", "Apple", 3, 300, 60, 120, "2024-06-01"⟩]⟩
      [⟨"A", "Apple", "Fruit", 100, 60, 7, 5⟩,
       ⟨"B", "Banana", "Fruit", 50, 20, 10, 5⟩]
      ⟨"s0", "A", "Apple", 3, 300, 60, 120, "2024-06-01"⟩
      "B" 5 "2024-06-02"
      ⟨"B", "Banana", "Fruit", 50, 20, 10, 5⟩
      ⟨"B", "Banana", "Fruit", 50, 20, 10, 5⟩
      (by decide) (by decide) (by decide) (by decide)).1⟩

unseal Rat.add Rat.mul Rat.sub Rat.inv in
/-- C7 as stated is false: with zero year-to-date sales the totals row is
indeed `TOTALS,,0,,0.00,0.00`, but the profit-margin field is not guarded —
the report's last line is `Profit Margin,NaN%` (the JS `0 / 0`), which is
neither `0.00%` nor `N/A`. -/
theorem csv_margin_unguarded_cex :
    (generateSalesReportLines (fun d => d) 2024 []).getLast?
      = some "Profit Margin,NaN%" ∧
    ("TOTALS,,0,,0.00,0.00" ∈ generateSalesReportLines (fun d => d) 2024 []) ∧
    "Profit Margin,NaN%" ≠ "Profit Margin,0.00%" ∧
    "Profit Margin,NaN%" ≠ "Profit Margin,N/A" := by
  exact ⟨by decide, by decide, by decide, by decide⟩

unseal Rat.add Rat.mul Rat.sub Rat.inv in
/-- C7 amended: for any date formatter and reporting year, the CSV for an
empty year-to-date sales list consists of the header, the totals row
`TOTALS,,0,,0.00,0.00`, and a summary block whose profit-margin line is
the unguarded non-numeric `Profit Margin,NaN%`. -/
theorem csv_empty_sales_spec (fmtDate : String → String) (y : ℤ) :
    generateSalesReportLines fmtDate y []
      = ["Date,Product Name,Quantity,Unit Price,Total Amount,Profit", "",
         "TOTALS,,0,,0.00,0.00", "", "SUMMARY INFORMATION",
         "Reporting Period," ++ toString y, "Total Products Sold,0",
         "Total Revenue,0.00", "Total Profit,0.00", "Profit Margin,NaN%"] := by
  rfl

/-- C10: `InventoryContext.addSale` appends the sale to the sales list and,
product by product, leaves every row whose id differs from
`sale.productId` untouched, while a row with that id keeps every field
except `stockQuantity`, which drops by `sale.quantity`. -/
theorem addSale_appends_and_frames (st : InvState) (s : SaleRow) :
    (addSale st s).sales = st.sales ++ [s] ∧
    List.Forall₂ (fun p p' : Product =>
        (p.id ≠ s.productId → p' = p) ∧
        (p.id = s.productId →
          p'.id = p.id ∧ p'.name = p.name ∧ p'.category = p.category ∧
          p'.price = p.price ∧ p'.cost = p.cost ∧
          p'.reorderLevel = p.reorderLevel ∧
          p'.stockQuantity = p.stockQuantity - s.quantity))
      st.products (addSale st s).products := by
  constructor
  · rfl
  · have : (addSale st s).products
        = st.products.map fun product =>
            if product.id = s.productId then
              { product with
                stockQuantity := product.stockQuantity - s.quantity }
            else product := rfl
    rw [this, List.forall₂_map_right_iff]
    refine List.forall₂_same.mpr fun p _ => ?_
    by_cases h : p.id = s.productId
    · simp [h]
    · simp [h]

/-- Witness for C10, at a two-product state where only the matching
product's stock moves. -/
theorem addSale_appends_and_frames_witness :
    (addSale ⟨[⟨"A", "Apple", "Fruit", 100, 60, 10, 5⟩,
               ⟨"B", "Banana", "Fruit", 50, 20, 8, 5⟩], []⟩
        ⟨"s1", "A", "Apple", 3, 300, 60, 120, "2024-06-01"⟩).sales
      = [] ++ [⟨"s1", "A", "Apple", 3, 300, 60, 120, "2024-06-01"⟩] :=
  (addSale_appends_and_frames
    ⟨[⟨"A", "Apple", "Fruit", 100, 60, 10, 5⟩,
      ⟨"B", "Banana", "Fruit", 50, 20, 8, 5⟩], []⟩
    ⟨"s1", "A", "Apple", 3, 300, 60, 120, "2024-06-01"⟩).1

/-- C9: the account-deletion handler answers 204 with the permissive CORS
headers to an OPTIONS preflight; 405 to any other non-POST method; 401 when
the Authorization header is absent or lacks a Bearer credential, or when
the credential does not resolve to a user; 400 when the body is not valid
JSON, or its `user_id` is missing, empty, or differs from the authenticated
user's id; 500 when the admin deletion call fails; and 200 exactly when
every check passes and the deletion succeeds.  Every response carries the
CORS headers. -/
theorem rapid_service_spec (env : AuthEnv) (req : HttpRequest) :
    ((serveHandler env req).headers = CORS_HEADERS) ∧
    (req.method = "OPTIONS" → serveHandler env req
      = { status := 204, headers := CORS_HEADERS }) ∧
    (req.method ≠ "OPTIONS" → req.method ≠ "POST" →
      (serveHandler env req).status = 405) ∧
    (req.method = "POST" → ¬ (req.authHeader.getD "").startsWith "Bearer " →
      (serveHandler env req).status = 401) ∧
    (req.method = "POST" → (req.authHeader.getD "").startsWith "Bearer " →
      env.getUser ((req.authHeader.getD "").drop ("Bearer ".length)) = none →
      (serveHandler env req).status = 401) ∧
    (∀ userId, req.method = "POST" →
      (req.authHeader.getD "").startsWith "Bearer " →
      env.getUser ((req.authHeader.getD "").drop ("Bearer ".length))
        = some userId →
      (req.body = none ∨ req.body = some none ∨ req.body = some (some "") ∨
        (∀ uid, req.body = some (some uid) → uid ≠ userId)) →
      (serveHandler env req).status = 400) ∧
    (∀ userId, req.method = "POST" →
      (req.authHeader.getD "").startsWith "Bearer " →
      env.getUser ((req.authHeader.getD "").drop ("Bearer ".length))
        = some userId →
      req.body = some (some userId) → userId ≠ "" →
      env.adminDeleteOk userId = false →
      (serveHandler env req).status = 500) ∧
    ((serveHandler env req).status = 200 ↔
      (req.method = "POST" ∧ (req.authHeader.getD "").startsWith "Bearer " ∧
        ∃ userId,
          env.getUser ((req.authHeader.getD "").drop ("Bearer ".length))
            = some userId ∧
          req.body = some (some userId) ∧ userId ≠ "" ∧
          env.adminDeleteOk userId = true)) := by
  refine ⟨?_, ?_, ?_, ?_, ?_, ?_, ?_, ?_⟩
  · unfold serveHandler
    dsimp only
    repeat' split
    all_goals rfl
  · intro h
    simp [serveHandler, h]
  · intro h1 h2
    unfold serveHandler
    rw [if_neg h1, if_pos h2]
  · intro h1 h2
    have hne : req.method ≠ "OPTIONS" := by rw [h1]; decide
    have hnp : ¬ req.method ≠ "POST" := not_not_intro h1
    unfold serveHandler
    rw [if_neg hne, if_neg hnp, if_pos h2]
  · intro h1 h2 h3
    have hne : req.method ≠ "OPTIONS" := by rw [h1]; decide
    have hnp : ¬ req.method ≠ "POST" := not_not_intro h1
    unfold serveHandler
    rw [if_neg hne, if_neg hnp, if_neg (not_not_intro h2)]
    dsimp only
    rw [h3]
  · intro userId h1 h2 h3 h4
    have hne : req.method ≠ "OPTIONS" := by rw [h1]; decide
    have hnp : ¬ req.method ≠ "POST" := not_not_intro h1
    unfold serveHandler
    rw [if_neg hne, if_neg hnp, if_neg (not_not_intro h2)]
    dsimp only
    rw [h3]
    rcases h4 with h | h | h | h
    · rw [h]
    · rw [h]
    · rw [h]
      dsimp only
      rw [if_pos (Or.inl rfl)]
    · rcases hb : req.body with _ | b
      · rfl
      · rcases b with _ | uid
        · rfl
        · dsimp only
          rw [if_pos (Or.inr (h uid hb))]
  · intro userId h1 h2 h3 h4 h5 h6
    have hne : req.method ≠ "OPTIONS" := by rw [h1]; decide
    have hnp : ¬ req.method ≠ "POST" := not_not_intro h1
    unfold serveHandler
    rw [if_neg hne, if_neg hnp, if_neg (not_not_intro h2)]
    dsimp only
    rw [h3, h4]
    dsimp only
    have hcond : ¬ (userId = "" ∨ userId ≠ userId) := by simp [h5]
    rw [if_neg hcond, h6]
    rfl
  · constructor
    · intro h200
      unfold serveHandler at h200
      dsimp only at h200
      by_cases ho : req.method = "OPTIONS"
      · rw [if_pos ho] at h200
        simp at h200
      rw [if_neg ho] at h200
      by_cases hp : req.method ≠ "POST"
      · rw [if_pos hp] at h200
        simp at h200
      rw [if_neg hp] at h200
      push_neg at hp
      by_cases hs : (req.authHeader.getD "").startsWith "Bearer "
      · rw [if_neg (not_not_intro hs)] at h200
        rcases hg : env.getUser ((req.authHeader.getD "").drop
            ("Bearer ".length)) with _ | userId
        · rw [hg] at h200
          simp at h200
        rw [hg] at h200
        rcases hb : req.body with _ | b
        · rw [hb] at h200
          simp at h200
        rw [hb] at h200
        rcases b with _ | uid
        · simp at h200
        dsimp only at h200
        by_cases he : uid = "" ∨ uid ≠ userId
        · rw [if_pos he] at h200
          simp at h200
        rw [if_neg he] at h200
        push_neg at he
        obtain ⟨hne, heq⟩ := he
        rcases hdel : env.adminDeleteOk userId with _ | _
        · rw [hdel] at h200
          simp at h200
        · subst heq
          exact ⟨hp, hs, uid, rfl, rfl, hne, hdel⟩
      · rw [if_pos] at h200
        · simp at h200
        · exact fun hc => hs hc
    · rintro ⟨hp, hs, userId, hg, hbody, hne, hdel⟩
      have ho : req.method ≠ "OPTIONS" := by rw [hp]; decide
      have hnp : ¬ req.method ≠ "POST" := not_not_intro hp
      unfold serveHandler
      rw [if_neg ho, if_neg hnp, if_neg (not_not_intro hs)]
      dsimp only
      rw [hg, hbody]
      dsimp only
      have hcond : ¬ (userId = "" ∨ userId ≠ userId) := by simp [hne]
      rw [if_neg hcond, hdel]
      rfl

/-- Witness for C9: a preflight OPTIONS request is answered 204 with the
CORS headers. -/
theorem rapid_service_spec_witness :
    serveHandler
        ⟨fun t => if t = "tok" then some "u1" else none, fun u => u = "u1"⟩
        ⟨"OPTIONS", none, none⟩
      = { status := 204, headers := CORS_HEADERS } :=
  (rapid_service_spec
    ⟨fun t => if t = "tok" then some "u1" else none, fun u => u = "u1"⟩
    ⟨"OPTIONS", none, none⟩).2.1 rfl

/-! ### Grouping lemmas for the top-seller pipeline -/

theorem lookupG_cons (e : String × ℚ) (tl : List (String × ℚ)) (k : String) :
    lookupG (e :: tl) k = if e.1 = k then some e.2 else lookupG tl k := by
  by_cases h : e.1 = k <;> simp [lookupG, h]

theorem lookupG_bump (g : List (String × ℚ)) (key : String) (p : ℚ)
    (k : String) :
    lookupG (bumpGroup g key p) k
      = if k = key then some (valG g k + p) else lookupG g k := by
  induction g with
  | nil =>
    by_cases h : k = key
    · subst h
      simp [bumpGroup, lookupG_cons, lookupG, valG]
    · simp [bumpGroup, lookupG_cons, lookupG, valG, h, Ne.symm h]
  | cons e tl ih =>
    obtain ⟨k0, v0⟩ := e
    by_cases h0 : k0 = key
    · subst h0
      by_cases h : k = k0
      · subst h
        simp [bumpGroup, lookupG_cons, valG]
      · simp [bumpGroup, lookupG_cons, valG, h, Ne.symm h]
    · simp only [bumpGroup, if_neg h0]
      by_cases h : k0 = k
      · subst h
        have hk : ¬ k0 = key := h0
        simp [lookupG_cons, valG, hk, Ne.symm hk]
      · rw [lookupG_cons, if_neg h, ih, lookupG_cons]
        by_cases hk : k = key
        · simp [hk, valG, lookupG_cons, h, h0]
        · simp [hk, h]

theorem valG_bump (g : List (String × ℚ)) (key : String) (p : ℚ)
    (k : String) :
    valG (bumpGroup g key p) k
      = if k = key then valG g k + p else valG g k := by
  by_cases h : k = key <;> simp [valG, lookupG_bump, h]

theorem mem_keys_bump (g : List (String × ℚ)) (key : String) (p : ℚ)
    (k : String) :
    k ∈ (bumpGroup g key p).map Prod.fst ↔
      k = key ∨ k ∈ g.map Prod.fst := by
  induction g with
  | nil => simp [bumpGroup]
  | cons e tl ih =>
    obtain ⟨k0, v0⟩ := e
    by_cases h0 : k0 = key
    · subst h0
      simp [bumpGroup]
    · simp only [bumpGroup, if_neg h0, List.map_cons, List.mem_cons, ih]
      tauto

theorem nodup_keys_bump (g : List (String × ℚ)) (key : String) (p : ℚ)
    (h : (g.map Prod.fst).Nodup) :
    ((bumpGroup g key p).map Prod.fst).Nodup := by
  induction g with
  | nil => simp [bumpGroup]
  | cons e tl ih =>
    obtain ⟨k0, v0⟩ := e
    simp only [List.map_cons, List.nodup_cons] at h
    by_cases h0 : k0 = key
    · subst h0
      simp [bumpGroup, h.1, h.2]
    · simp only [bumpGroup, if_neg h0, List.map_cons, List.nodup_cons]
      refine ⟨?_, ih h.2⟩
      rw [mem_keys_bump]
      rintro (hc | hc)
      · exact h0 hc
      · exact h.1 hc

theorem valG_fold (sales : List SaleRow) :
    ∀ (g : List (String × ℚ)) (k : String),
    valG (sales.foldl
        (fun g s => bumpGroup g (truncName s.productName) s.profit) g) k
      = valG g k +
        ((sales.filter fun s => truncName s.productName = k).map
          (fun s => s.profit)).sum := by
  induction sales with
  | nil =>
    intro g k
    simp
  | cons s tl ih =>
    intro g k
    rw [List.foldl_cons, ih]
    by_cases h : truncName s.productName = k
    · rw [valG_bump, if_pos h.symm]
      simp [List.filter_cons, h]
      ring
    · rw [valG_bump, if_neg fun hh => h hh.symm]
      simp [List.filter_cons, h]

theorem mem_keys_fold (sales : List SaleRow) :
    ∀ (g : List (String × ℚ)) (k : String),
    (k ∈ (sales.foldl
        (fun g s => bumpGroup g (truncName s.productName) s.profit) g).map
          Prod.fst) ↔
      k ∈ g.map Prod.fst ∨
        k ∈ sales.map fun s => truncName s.productName := by
  induction sales with
  | nil =>
    intro g k
    simp
  | cons s tl ih =>
    intro g k
    rw [List.foldl_cons, ih, mem_keys_bump]
    simp only [List.map_cons, List.mem_cons]
    tauto

theorem nodup_keys_fold (sales : List SaleRow) :
    ∀ (g : List (String × ℚ)), (g.map Prod.fst).Nodup →
    ((sales.foldl
        (fun g s => bumpGroup g (truncName s.productName) s.profit) g).map
          Prod.fst).Nodup := by
  induction sales with
  | nil =>
    intro g hg
    simpa using hg
  | cons s tl ih =>
    intro g hg
    rw [List.foldl_cons]
    exact ih _ (nodup_keys_bump _ _ _ hg)

theorem valG_of_mem :
    ∀ {g : List (String × ℚ)}, (g.map Prod.fst).Nodup →
    ∀ {k : String} {v : ℚ}, (k, v) ∈ g → valG g k = v := by
  intro g
  induction g with
  | nil => simp
  | cons e tl ih =>
    obtain ⟨k0, v0⟩ := e
    intro hnd k v hm
    simp only [List.map_cons, List.nodup_cons] at hnd
    rcases List.mem_cons.mp hm with he | hm2
    · injection he with h1 h2
      subst h1
      subst h2
      simp [valG, lookupG_cons]
    · have hk : ¬ k0 = k := by
        intro hc
        subst hc
        exact hnd.1 (List.mem_map_of_mem Prod.fst hm2)
      rw [valG, lookupG_cons, if_neg hk]
      exact ih hnd.2 hm2

/-- The sort step of the top-seller pipeline produces a list that is
pairwise descending in the grouped amount. -/
theorem sorted_groups (g : List (String × ℚ)) :
    (g.mergeSort fun a b => decide (b.2 ≤ a.2)).Pairwise
      (fun a b : String × ℚ => decide (b.2 ≤ a.2) = true) :=
  List.sorted_mergeSort
    (fun a b c hab hbc => by
      simp only [decide_eq_true_eq] at hab hbc ⊢
      exact le_trans hbc hab)
    (fun a b => by
      rcases le_total b.2 a.2 with h | h <;> simp [h])
    g

/-- Shared properties of the top-seller pipeline, proved once for
`topMonthSales` (and transported to the identical `topYearSales`):
at most ten entries, sorted descending by amount, every returned entry a
genuine group (its key is realized by some sale and its amount is that
group's summed profit), the returned keys pairwise distinct, and any
realized group that is omitted forces a full result of ten entries, each
of whose amounts dominates the omitted group's sum — so the returned
groups are the top ten. -/
theorem topPipeline_props (sales : List SaleRow) :
    (topMonthSales sales).length ≤ 10 ∧
    (topMonthSales sales).Pairwise (fun a b : String × ℚ => b.2 ≤ a.2) ∧
    (∀ e ∈ topMonthSales sales,
      (e.1 ∈ sales.map fun s => truncName s.productName) ∧
      e.2 = ((sales.filter fun s => truncName s.productName = e.1).map
        fun s => s.profit).sum) ∧
    ((topMonthSales sales).map Prod.fst).Nodup ∧
    (∀ k ∈ sales.map (fun s => truncName s.productName),
      k ∉ (topMonthSales sales).map Prod.fst →
      (topMonthSales sales).length = 10 ∧
      ∀ e ∈ topMonthSales sales,
        ((sales.filter fun s => truncName s.productName = k).map
          fun s => s.profit).sum ≤ e.2) := by
  have hnd : ((sales.foldl
      (fun g s => bumpGroup g (truncName s.productName) s.profit)
        []).map Prod.fst).Nodup :=
    nodup_keys_fold sales [] (by simp)
  have hsorted := sorted_groups (sales.foldl
    (fun g s => bumpGroup g (truncName s.productName) s.profit) [])
  have hnil : ∀ k, valG [] k = 0 := fun k => by simp [valG, lookupG]
  refine ⟨?_, ?_, ?_, ?_, ?_⟩
  · simp only [topMonthSales]
    rw [List.length_take]
    exact min_le_left _ _
  · simp only [topMonthSales]
    exact (hsorted.sublist (List.take_sublist 10 _)).imp
      fun h => of_decide_eq_true h
  · intro e he
    simp only [topMonthSales] at he
    have he3 : e ∈ sales.foldl
        (fun g s => bumpGroup g (truncName s.productName) s.profit) [] :=
      List.mem_mergeSort.mp (List.mem_of_mem_take he)
    obtain ⟨k, v⟩ := e
    have hval := valG_of_mem hnd he3
    have hfold := valG_fold sales [] k
    constructor
    · have hk := List.mem_map_of_mem Prod.fst he3
      have := (mem_keys_fold sales [] k).mp hk
      simpa using this
    · rw [← hval, hfold, hnil, zero_add]
  · simp only [topMonthSales]
    rw [List.map_take]
    have hperm := (List.mergeSort_perm (sales.foldl
      (fun g s => bumpGroup g (truncName s.productName) s.profit) [])
        (fun a b => decide (b.2 ≤ a.2))).map Prod.fst
    exact List.Nodup.sublist (List.take_sublist _ _) (hperm.nodup_iff.mpr hnd)
  · intro k hk hnotin
    have hkeys : k ∈ (sales.foldl
        (fun g s => bumpGroup g (truncName s.productName) s.profit)
          []).map Prod.fst :=
      (mem_keys_fold sales [] k).mpr (Or.inr hk)
    obtain ⟨e, he, hek⟩ := List.mem_map.mp hkeys
    have hme : (k, e.2) = e := by rw [← hek]
    have hmem : (k, e.2) ∈ sales.foldl
        (fun g s => bumpGroup g (truncName s.productName) s.profit) [] := by
      rw [hme]
      exact he
    have hval := valG_of_mem hnd hmem
    have hsum : e.2 = ((sales.filter
        fun s => truncName s.productName = k).map
          fun s => s.profit).sum := by
      rw [← hval, valG_fold sales [] k, hnil, zero_add]
    have hes : (k, e.2) ∈ (sales.foldl
        (fun g s => bumpGroup g (truncName s.productName) s.profit)
          []).mergeSort (fun a b => decide (b.2 ≤ a.2)) :=
      List.mem_mergeSort.mpr hmem
    have hnotake : (k, e.2) ∉ ((sales.foldl
        (fun g s => bumpGroup g (truncName s.productName) s.profit)
          []).mergeSort (fun a b => decide (b.2 ≤ a.2))).take 10 := by
      intro hc
      simp only [topMonthSales] at hnotin
      exact hnotin (List.mem_map_of_mem Prod.fst hc)
    have hsplit0 : (k, e.2) ∈ ((sales.foldl
        (fun g s => bumpGroup g (truncName s.productName) s.profit)
          []).mergeSort (fun a b => decide (b.2 ≤ a.2))).take 10 ++
        ((sales.foldl
        (fun g s => bumpGroup g (truncName s.productName) s.profit)
          []).mergeSort (fun a b => decide (b.2 ≤ a.2))).drop 10 := by
      rw [List.take_append_drop]
      exact hes
    have hdrop : (k, e.2) ∈ ((sales.foldl
        (fun g s => bumpGroup g (truncName s.productName) s.profit)
          []).mergeSort (fun a b => decide (b.2 ≤ a.2))).drop 10 := by
      rcases List.mem_append.mp hsplit0 with h | h
      · exact absurd h hnotake
      · exact h
    have hpos : 0 < (((sales.foldl
        (fun g s => bumpGroup g (truncName s.productName) s.profit)
          []).mergeSort (fun a b => decide (b.2 ≤ a.2))).drop 10).length :=
      List.length_pos.mpr (List.ne_nil_of_mem hdrop)
    rw [List.length_drop] at hpos
    constructor
    · simp only [topMonthSales, List.length_take]
      omega
    · have hsplit : List.Pairwise (fun a b : String × ℚ =>
          decide (b.2 ≤ a.2) = true)
          ((((sales.foldl
            (fun g s => bumpGroup g (truncName s.productName) s.profit)
              []).mergeSort (fun a b => decide (b.2 ≤ a.2))).take 10) ++
           (((sales.foldl
            (fun g s => bumpGroup g (truncName s.productName) s.profit)
              []).mergeSort (fun a b => decide (b.2 ≤ a.2))).drop 10)) := by
        rw [List.take_append_drop]
        exact hsorted
      obtain ⟨-, -, hcross⟩ := List.pairwise_append.mp hsplit
      intro e2 he2
      simp only [topMonthSales] at he2
      have hle := hcross e2 he2 (k, e.2) hdrop
      rw [← hsum]
      exact of_decide_eq_true hle

/-- C8: for either period's sales subset, the top-seller chart groups the
sales by the truncated product name (so distinct names truncating
identically merge into one group), each displayed amount is the summed
profit of the sales whose truncated name equals the group's key, the
returned keys are pairwise distinct, the groups come out sorted in
descending order of summed profit, at most ten groups are returned, and
the returned groups are the top ten: any realized group left out forces a
full result of ten entries whose amounts all dominate the omitted group's
summed profit — identically for the month and the year chart. -/
theorem topSellers_spec (periodSales : List SaleRow) :
    ((topMonthSales periodSales).length ≤ 10 ∧
     (topMonthSales periodSales).Pairwise
       (fun a b : String × ℚ => b.2 ≤ a.2) ∧
     (∀ e ∈ topMonthSales periodSales,
       (e.1 ∈ periodSales.map fun s => truncName s.productName) ∧
       e.2 = ((periodSales.filter
           fun s => truncName s.productName = e.1).map
         fun s => s.profit).sum) ∧
     ((topMonthSales periodSales).map Prod.fst).Nodup ∧
     (∀ k ∈ periodSales.map (fun s => truncName s.productName),
       k ∉ (topMonthSales periodSales).map Prod.fst →
       (topMonthSales periodSales).length = 10 ∧
       ∀ e ∈ topMonthSales periodSales,
         ((periodSales.filter fun s => truncName s.productName = k).map
           fun s => s.profit).sum ≤ e.2)) ∧
    ((topYearSales periodSales).length ≤ 10 ∧
     (topYearSales periodSales).Pairwise
       (fun a b : String × ℚ => b.2 ≤ a.2) ∧
     (∀ e ∈ topYearSales periodSales,
       (e.1 ∈ periodSales.map fun s => truncName s.productName) ∧
       e.2 = ((periodSales.filter
           fun s => truncName s.productName = e.1).map
         fun s => s.profit).sum) ∧
     ((topYearSales periodSales).map Prod.fst).Nodup ∧
     (∀ k ∈ periodSales.map (fun s => truncName s.productName),
       k ∉ (topYearSales periodSales).map Prod.fst →
       (topYearSales periodSales).length = 10 ∧
       ∀ e ∈ topYearSales periodSales,
         ((periodSales.filter fun s => truncName s.productName = k).map
           fun s => s.profit).sum ≤ e.2)) := by
  refine ⟨topPipeline_props periodSales, ?_⟩
  have hEq : topYearSales periodSales = topMonthSales periodSales := rfl
  rw [hEq]
  exact topPipeline_props periodSales

unseal Rat.add Rat.mul Rat.sub Rat.inv List.merge List.mergeSort in
/-- Witness for C8: two distinct long names that truncate to the same key
are merged into a single group whose amount is the summed profit. -/
theorem topSellers_spec_witness :
    (("SuperLongP…", (70 : ℚ)) ∈ topMonthSales
      [⟨"s1", "A", "SuperLongProductName", 2, 100, 60, 40, "2024-06-01"⟩,
       ⟨"s2", "B", "SuperLongProductXYZ", 1, 50, 20, 30, "2024-06-02"⟩]) ∧
    ("SuperLongP…" ∈
      ([⟨"s1", "A", "SuperLongProductName", 2, 100, 60, 40, "2024-06-01"⟩,
        ⟨"s2", "B", "SuperLongProductXYZ", 1, 50, 20, 30, "2024-06-02"⟩]
        : List SaleRow).map fun s => truncName s.productName) ∧
    (70 : ℚ) = ((([⟨"s1", "A", "SuperLongProductName", 2, 100, 60, 40,
          "2024-06-01"⟩,
        ⟨"s2", "B", "SuperLongProductXYZ", 1, 50, 20, 30, "2024-06-02"⟩]
        : List SaleRow).filter
          fun s => truncName s.productName = "SuperLongP…").map
        fun s => s.profit).sum := by
  have hmem : ("SuperLongP…", (70 : ℚ)) ∈ topMonthSales
      [⟨"s1", "A", "SuperLongProductName", 2, 100, 60, 40, "2024-06-01"⟩,
       ⟨"s2", "B", "SuperLongProductXYZ", 1, 50, 20, 30, "2024-06-02"⟩] := by
    decide
  refine ⟨hmem, ?_, ?_⟩
  · exact ((topSellers_spec
      [⟨"s1", "A", "SuperLongProductName", 2, 100, 60, 40, "2024-06-01"⟩,
       ⟨"s2", "B", "SuperLongProductXYZ", 1, 50, 20, 30, "2024-06-02"⟩]).1.2.2.1
      _ hmem).1
  · exact ((topSellers_spec
      [⟨"s1", "A", "SuperLongProductName", 2, 100, 60, 40, "2024-06-01"⟩,
       ⟨"s2", "B", "SuperLongProductXYZ", 1, 50, 20, 30, "2024-06-02"⟩]).1.2.2.1
      _ hmem).2

end ShopInvt
